import Mathlib

/-!
Shallow embedding of `src/garbagegrab-program/score-program/src/lib.rs`
(the Solana score program): the `process_instruction` handler with its
two operations, Create (selector 0) and Increment (selector 1), over a
41-byte record `[is_initialized (1) | player (32) | score (8, LE)]`.

Byte buffers are `List Nat` (each byte a natural `< 256` in real inputs);
public keys are 32-byte buffers. The PDA derivation
`Pubkey.find_program_address` is an external cryptographic primitive and
is abstracted as a function parameter `findPA`; the system-program
`create_account` call made through `invoke_signed` is external as well
and is abstracted as a boolean `allocOk` (on success it yields a
zero-filled buffer of the requested size, on failure the error is
propagated unchanged). Programs can panic (out-of-bounds indexing), so
the handler's result is a three-way `Outcome`.
-/

namespace GarbageGrab

/-- The error kinds `process_instruction` can return.  `External` stands
for any error propagated unchanged from an external call
(`Rent::get`, `invoke_signed`). -/
inductive ProgramError where
  | InvalidAccountData
  | AccountAlreadyInitialized
  | UninitializedAccount
  | InvalidInstructionData
  | External
deriving DecidableEq, Repr

/-- Result of one invocation: a Rust panic (out-of-bounds slice index),
a typed error, or success carrying the score account's new data.  On
`panic`/`err` the host discards all effects, so the account data is the
original buffer. -/
inductive Outcome where
  | panic
  | err (e : ProgramError)
  | ok (data : List Nat)
deriving DecidableEq, Repr

/-- The account data visible after the invocation: the new buffer on
success, the untouched original otherwise (host-level atomicity). -/
def Outcome.finalData (o : Outcome) (orig : List Nat) : List Nat :=
  match o with
  | .ok d => d
  | _ => orig

/-- A public key: 32 raw bytes. -/
abbrev Pubkey := List Nat

/-- `ScoreAccount::LEN = 1 + 32 + 8`. -/
def ScoreAccountLEN : Nat := 41

/-- `MAX_SCORE` constant from the source. -/
def MAX_SCORE : Nat := 1000000

/-- Largest value of a `u64`. -/
def U64_MAX : Nat := 2 ^ 64 - 1

/-- The byte string `b"score"` used as the PDA seed tag. -/
def scoreSeed : List Nat := [115, 99, 111, 114, 101]

/-- `u64::from_le_bytes`, generalized to any byte list. -/
def leBytesToNat : List Nat → Nat
  | [] => 0
  | b :: bs => b + 256 * leBytesToNat bs

/-- `u64::to_le_bytes` (first argument is the width in bytes). -/
def natToLeBytes : Nat → Nat → List Nat
  | 0, _ => []
  | w + 1, n => n % 256 :: natToLeBytes w (n / 256)

/-- `slice[off..off+src.len()].copy_from_slice(src)` on a byte buffer. -/
def writeSlice (data : List Nat) (off : Nat) (src : List Nat) : List Nat :=
  data.take off ++ src ++ data.drop (off + src.length)

/-- The initialization probe from the source:
`data.len() == ScoreAccount::LEN && data[0] == 1`
(short-circuit `&&`, so the index is safe). -/
def isInitializedProbe (data : List Nat) : Bool :=
  data.length == ScoreAccountLEN && data.headD 0 == 1

/-- The 41-byte buffer written by a successful Create: the account is
allocated zero-filled, then `data[0] = 1`, `data[1..33] = player`,
`data[33..41] = 0u64.to_le_bytes()`. -/
def createdData (playerKey : Pubkey) : List Nat :=
  writeSlice (writeSlice ((List.replicate ScoreAccountLEN 0).set 0 1) 1 playerKey)
    33 (natToLeBytes 8 0)

/-- Shallow embedding of `process_instruction`.

* `findPA` abstracts `Pubkey::find_program_address` (seeds, program id ↦
  (pda, bump)); the handler calls it on `[b"score", player.key]`.
* `allocOk` abstracts success of the `invoke_signed(create_account, ...)`
  call; on failure the external error is propagated.
* `scoreKey`/`scoreData` are the first account's address and byte buffer,
  `playerKey` the second account's address; the third account (system
  program) is only forwarded to the external call. -/
def processInstruction (findPA : List (List Nat) → Pubkey → Pubkey × Nat)
    (allocOk : Bool) (programId : Pubkey) (scoreKey : Pubkey)
    (scoreData : List Nat) (playerKey : Pubkey)
    (instructionData : List Nat) : Outcome :=
  let pda := (findPA [scoreSeed, playerKey] programId).1
  if pda ≠ scoreKey then
    .err .InvalidAccountData
  else
    let isInit := isInitializedProbe scoreData
    match instructionData with
    | [] => .panic
    | sel :: rest =>
      if sel = 0 then
        if isInit then
          .err .AccountAlreadyInitialized
        else if allocOk then
          .ok (createdData playerKey)
        else
          .err .External
      else if sel = 1 then
        if !isInit then
          .err .UninitializedAccount
        else
          let currentScore := leBytesToNat ((scoreData.drop 33).take 8)
          if currentScore > MAX_SCORE then
            .err .InvalidAccountData
          else if instructionData.length < 9 then
            .err .InvalidInstructionData
          else
            let increment := leBytesToNat (rest.take 8)
            if currentScore + increment > U64_MAX then
              .err .InvalidAccountData
            else
              .ok (writeSlice scoreData 33 (natToLeBytes 8 (currentScore + increment)))
      else
        .err .InvalidInstructionData

end GarbageGrab

namespace GarbageGrab

/-- Decoding the `w`-byte little-endian encoding of `n` recovers `n`
modulo `2 ^ (8 w)`. -/
theorem leBytesToNat_natToLeBytes (w n : Nat) :
    leBytesToNat (natToLeBytes w n) = n % 2 ^ (8 * w) := by
  induction w generalizing n with
  | zero => simp [natToLeBytes, leBytesToNat, Nat.mod_one]
  | succ w ih =>
    simp only [natToLeBytes, leBytesToNat, ih]
    have h : 2 ^ (8 * (w + 1)) = 256 * 2 ^ (8 * w) := by
      rw [show 8 * (w + 1) = 8 + 8 * w by ring, pow_add]
      norm_num
    rw [h, Nat.mod_mul]

/-- The little-endian encoding has one byte per requested width unit. -/
theorem natToLeBytes_length (w n : Nat) : (natToLeBytes w n).length = w := by
  induction w generalizing n with
  | zero => rfl
  | succ w ih => simp [natToLeBytes, ih]

/-- `writeSlice` preserves the buffer length when the write fits. -/
theorem writeSlice_length (data src : List Nat) (off : Nat)
    (h : off + src.length ≤ data.length) :
    (writeSlice data off src).length = data.length := by
  simp [writeSlice]
  omega

/-- The prefix before the written window is untouched. -/
theorem writeSlice_take (data src : List Nat) (off : Nat)
    (h : off ≤ data.length) :
    (writeSlice data off src).take off = data.take off := by
  have hl : (data.take off).length = off := by simp [Nat.min_eq_left h]
  have h1 : off - (data.take off ++ src).length = 0 := by simp [hl]
  have h2 : off - (data.take off).length = 0 := by simp [hl]
  rw [writeSlice, List.take_append_eq_append_take, h1, List.take_zero, List.append_nil,
    List.take_append_eq_append_take, h2, List.take_zero, List.append_nil,
    List.take_take, Nat.min_self]

/-- Reading back the written window returns the written bytes. -/
theorem writeSlice_read (data src : List Nat) (off : Nat)
    (h : off ≤ data.length) :
    ((writeSlice data off src).drop off).take src.length = src := by
  have hl : (data.take off).length = off := by simp [Nat.min_eq_left h]
  have hnil : (data.take off).drop off = [] := List.drop_eq_nil_of_le (le_of_eq hl)
  have h0 : off - (data.take off ++ src).length = 0 := by simp [hl]
  rw [writeSlice, List.drop_append_eq_append_drop, h0, List.drop_zero,
    List.drop_append_eq_append_drop, hl, Nat.sub_self, List.drop_zero, hnil,
    List.nil_append, List.take_append_eq_append_take, List.take_length, Nat.sub_self,
    List.take_zero, List.append_nil]

/-- Evaluation of the handler on an Increment instruction against a
matching PDA and an initialized record: the surviving checks are, in
order, the pre-increment ceiling guard, the payload-length guard and the
checked addition. -/
theorem increment_eval (findPA : List (List Nat) → Pubkey → Pubkey × Nat)
    (allocOk : Bool) (programId scoreKey playerKey : Pubkey)
    (scoreData rest : List Nat)
    (hpda : (findPA [scoreSeed, playerKey] programId).1 = scoreKey)
    (hinit : isInitializedProbe scoreData = true) :
    processInstruction findPA allocOk programId scoreKey scoreData playerKey
        (1 :: rest) =
      (if MAX_SCORE < leBytesToNat ((scoreData.drop 33).take 8) then
        .err .InvalidAccountData
      else if rest.length + 1 < 9 then .err .InvalidInstructionData
      else if U64_MAX <
          leBytesToNat ((scoreData.drop 33).take 8) + leBytesToNat (rest.take 8) then
        .err .InvalidAccountData
      else
        .ok (writeSlice scoreData 33 (natToLeBytes 8
          (leBytesToNat ((scoreData.drop 33).take 8) + leBytesToNat (rest.take 8))))) := by
  unfold processInstruction
  rw [if_neg (by simp [hpda])]
  simp only [hinit, List.length_cons]
  norm_num

/-- Evaluation of the handler on a Create instruction against a matching
PDA. -/
theorem create_eval (findPA : List (List Nat) → Pubkey → Pubkey × Nat)
    (allocOk : Bool) (programId scoreKey playerKey : Pubkey)
    (scoreData rest : List Nat)
    (hpda : (findPA [scoreSeed, playerKey] programId).1 = scoreKey) :
    processInstruction findPA allocOk programId scoreKey scoreData playerKey
        (0 :: rest) =
      (if isInitializedProbe scoreData then .err .AccountAlreadyInitialized
      else if allocOk then .ok (createdData playerKey)
      else .err .External) := by
  unfold processInstruction
  rw [if_neg (by simp [hpda])]
  simp

/-- Unfolding of the probe into its two conjuncts (helper, shared by
several proofs below). -/
theorem probe_true_iff (data : List Nat) :
    isInitializedProbe data = true ↔ data.length = 41 ∧ data.headD 0 = 1 := by
  unfold isInitializedProbe ScoreAccountLEN
  simp

/-- A concrete executable stand-in for the external PDA derivation,
used to instantiate the theorems below at concrete inputs. -/
def sampleFindPA (seeds : List (List Nat)) (programId : Pubkey) : Pubkey × Nat :=
  (seeds.flatten ++ programId, 255)

/-- A concrete player identity (32 bytes). -/
def samplePlayer : Pubkey := List.replicate 32 5

/-- A concrete program identity. -/
def sampleProgramId : Pubkey := [9]

/-- The address `sampleFindPA` derives for `samplePlayer` under
`sampleProgramId`. -/
def sampleKey : Pubkey := (sampleFindPA [scoreSeed, samplePlayer] sampleProgramId).1

/-- A concrete well-formed 41-byte record holding the given score. -/
def sampleData (score : Nat) : List Nat :=
  1 :: (samplePlayer ++ natToLeBytes 8 score)

/-- **C5**: the probe shared by both operations classifies a buffer as
initialized iff its length is exactly 41 and its first byte is 1;
anything else, including the empty buffer, is not initialized. -/
theorem probe_characterization (data : List Nat) :
    (isInitializedProbe data = true ↔ data.length = 41 ∧ data.head? = some 1)
      ∧ isInitializedProbe [] = false := by
  refine ⟨?_, rfl⟩
  unfold isInitializedProbe ScoreAccountLEN
  cases data with
  | nil => simp
  | cons b bs => simp [List.headD]

/-- **C4**: when the caller-supplied score-account address differs from
the PDA derived from the seeds `[b"score", player]` under the program
identity, the handler fails with `InvalidAccountData` before dispatching
on the selector, for every payload (hence every selector byte) and every
record content. -/
theorem pda_mismatch_rejected (findPA : List (List Nat) → Pubkey → Pubkey × Nat)
    (allocOk : Bool) (programId scoreKey playerKey : Pubkey)
    (scoreData instructionData : List Nat)
    (hpda : (findPA [scoreSeed, playerKey] programId).1 ≠ scoreKey) :
    processInstruction findPA allocOk programId scoreKey scoreData playerKey
      instructionData = .err .InvalidAccountData := by
  simp [processInstruction, hpda]

/-- Witness for C4 at a concrete mismatching address. -/
theorem pda_mismatch_rejected_witness :
    (sampleFindPA [scoreSeed, samplePlayer] sampleProgramId).1 ≠ ([0] : Pubkey)
      ∧ processInstruction sampleFindPA true sampleProgramId [0] (sampleData 0)
          samplePlayer [1, 2, 3] = .err .InvalidAccountData :=
  ⟨by decide,
    pda_mismatch_rejected sampleFindPA true sampleProgramId [0] samplePlayer
      (sampleData 0) [1, 2, 3] (by decide)⟩

/-- **C3**: with a matching address and an empty instruction payload,
the handler reaches the unguarded index `instruction_data[0]` and
panics; the empty payload is not reported as a typed
`InvalidInstructionData` failure. -/
theorem empty_payload_panics (findPA : List (List Nat) → Pubkey → Pubkey × Nat)
    (allocOk : Bool) (programId scoreKey playerKey : Pubkey) (scoreData : List Nat)
    (hpda : (findPA [scoreSeed, playerKey] programId).1 = scoreKey) :
    processInstruction findPA allocOk programId scoreKey scoreData playerKey []
        = .panic
      ∧ processInstruction findPA allocOk programId scoreKey scoreData playerKey []
        ≠ .err .InvalidInstructionData := by
  refine ⟨?_, ?_⟩ <;> simp [processInstruction, hpda]

/-- Witness for C3 at concrete accounts. -/
theorem empty_payload_panics_witness :
    (sampleFindPA [scoreSeed, samplePlayer] sampleProgramId).1 = sampleKey
      ∧ (processInstruction sampleFindPA true sampleProgramId sampleKey (sampleData 0)
          samplePlayer [] = .panic
        ∧ processInstruction sampleFindPA true sampleProgramId sampleKey (sampleData 0)
          samplePlayer [] ≠ .err .InvalidInstructionData) :=
  ⟨rfl,
    empty_payload_panics sampleFindPA true sampleProgramId sampleKey samplePlayer
      (sampleData 0) rfl⟩

/-- **C1**: for an initialized record, an Increment that would not
overflow fails with `InvalidAccountData` iff the pre-increment score
strictly exceeds 1,000,000; when the pre-increment score is at most
1,000,000 and the payload is long enough, the operation succeeds and
writes the sum, even if the sum exceeds the ceiling. -/
theorem increment_ceiling_iff (findPA : List (List Nat) → Pubkey → Pubkey × Nat)
    (allocOk : Bool) (programId scoreKey playerKey : Pubkey)
    (scoreData rest : List Nat)
    (hpda : (findPA [scoreSeed, playerKey] programId).1 = scoreKey)
    (hinit : isInitializedProbe scoreData = true)
    (hnoov : 8 ≤ rest.length →
      leBytesToNat ((scoreData.drop 33).take 8) + leBytesToNat (rest.take 8) ≤ U64_MAX) :
    (processInstruction findPA allocOk programId scoreKey scoreData playerKey (1 :: rest)
        = .err .InvalidAccountData
      ↔ MAX_SCORE < leBytesToNat ((scoreData.drop 33).take 8))
    ∧ (leBytesToNat ((scoreData.drop 33).take 8) ≤ MAX_SCORE → 8 ≤ rest.length →
        processInstruction findPA allocOk programId scoreKey scoreData playerKey (1 :: rest)
          = .ok (writeSlice scoreData 33 (natToLeBytes 8
              (leBytesToNat ((scoreData.drop 33).take 8) + leBytesToNat (rest.take 8))))) := by
  rw [increment_eval findPA allocOk programId scoreKey playerKey scoreData rest hpda hinit]
  refine ⟨⟨?_, ?_⟩, ?_⟩
  · intro hres
    by_contra hcur
    push_neg at hcur
    rw [if_neg (by omega)] at hres
    by_cases hlen : rest.length + 1 < 9
    · rw [if_pos hlen] at hres
      exact absurd hres (by simp)
    · have hno := hnoov (by omega)
      rw [if_neg hlen, if_neg (by omega)] at hres
      exact absurd hres (by simp)
  · intro hcur
    rw [if_pos hcur]
  · intro hcur hlen
    have hno := hnoov hlen
    rw [if_neg (by omega), if_neg (by omega), if_neg (by omega)]

/-- Witness for C1: pre-increment score exactly 1,000,000 passes the
guard, and adding 500 succeeds, pushing the stored score above the
ceiling. -/
theorem increment_ceiling_iff_witness :
    (sampleFindPA [scoreSeed, samplePlayer] sampleProgramId).1 = sampleKey
      ∧ isInitializedProbe (sampleData 1000000) = true
      ∧ (8 ≤ (natToLeBytes 8 500).length →
          leBytesToNat (((sampleData 1000000).drop 33).take 8)
            + leBytesToNat ((natToLeBytes 8 500).take 8) ≤ U64_MAX)
      ∧ ((processInstruction sampleFindPA true sampleProgramId sampleKey (sampleData 1000000)
            samplePlayer (1 :: natToLeBytes 8 500) = .err .InvalidAccountData
          ↔ MAX_SCORE < leBytesToNat (((sampleData 1000000).drop 33).take 8))
        ∧ (leBytesToNat (((sampleData 1000000).drop 33).take 8) ≤ MAX_SCORE →
            8 ≤ (natToLeBytes 8 500).length →
            processInstruction sampleFindPA true sampleProgramId sampleKey (sampleData 1000000)
              samplePlayer (1 :: natToLeBytes 8 500)
              = .ok (writeSlice (sampleData 1000000) 33 (natToLeBytes 8
                  (leBytesToNat (((sampleData 1000000).drop 33).take 8)
                    + leBytesToNat ((natToLeBytes 8 500).take 8)))))) :=
  ⟨rfl, by decide, by decide,
    increment_ceiling_iff sampleFindPA true sampleProgramId sampleKey samplePlayer
      (sampleData 1000000) (natToLeBytes 8 500) rfl (by decide) (by decide)⟩

/-- **C2** counterexample: on a record storing score 2,000,000 (above
the ceiling) the one-byte Increment payload `[1]` fails with
`InvalidAccountData` from the ceiling guard, not
`InvalidInstructionData` — the ceiling check precedes the payload-length
check. -/
theorem short_payload_counterexample :
    processInstruction sampleFindPA true sampleProgramId sampleKey (sampleData 2000000)
        samplePlayer [1] = .err .InvalidAccountData
      ∧ processInstruction sampleFindPA true sampleProgramId sampleKey (sampleData 2000000)
        samplePlayer [1] ≠ .err .InvalidInstructionData := by
  decide

/-- **C2** (amended): an Increment whose payload is shorter than 9 bytes
fails with `InvalidInstructionData` provided the stored score does not
already exceed 1,000,000; when it does, the ceiling guard fires first
and the handler fails with `InvalidAccountData` instead. -/
theorem short_payload_rejected (findPA : List (List Nat) → Pubkey → Pubkey × Nat)
    (allocOk : Bool) (programId scoreKey playerKey : Pubkey)
    (scoreData rest : List Nat)
    (hpda : (findPA [scoreSeed, playerKey] programId).1 = scoreKey)
    (hinit : isInitializedProbe scoreData = true)
    (hcur : leBytesToNat ((scoreData.drop 33).take 8) ≤ MAX_SCORE)
    (hlen : rest.length < 8) :
    processInstruction findPA allocOk programId scoreKey scoreData playerKey (1 :: rest)
      = .err .InvalidInstructionData := by
  rw [increment_eval findPA allocOk programId scoreKey playerKey scoreData rest hpda hinit,
    if_neg (by omega), if_pos (by omega)]

/-- Witness for the amended C2 at a concrete short payload. -/
theorem short_payload_rejected_witness :
    (sampleFindPA [scoreSeed, samplePlayer] sampleProgramId).1 = sampleKey
      ∧ isInitializedProbe (sampleData 500) = true
      ∧ leBytesToNat (((sampleData 500).drop 33).take 8) ≤ MAX_SCORE
      ∧ ([] : List Nat).length < 8
      ∧ processInstruction sampleFindPA true sampleProgramId sampleKey (sampleData 500)
          samplePlayer [1] = .err .InvalidInstructionData :=
  ⟨rfl, by decide, by decide, by decide,
    short_payload_rejected sampleFindPA true sampleProgramId sampleKey samplePlayer
      (sampleData 500) [] rfl (by decide) (by decide) (by decide)⟩

/-- The three sequential writes of Create produce the flat layout
`[1 | player (32) | zero score (8, LE)]` (helper). -/
theorem createdData_eq (playerKey : Pubkey) (h : playerKey.length = 32) :
    createdData playerKey = 1 :: (playerKey ++ natToLeBytes 8 0) := by
  unfold createdData
  have h1 : (List.replicate ScoreAccountLEN 0).set 0 1 = 1 :: List.replicate 40 0 := rfl
  have h2 : writeSlice (1 :: List.replicate 40 0) 1 playerKey
      = 1 :: (playerKey ++ List.replicate 8 0) := by
    unfold writeSlice
    rw [h]
    rfl
  rw [h1, h2]
  unfold writeSlice
  have htake : List.take 33 (1 :: (playerKey ++ List.replicate 8 0)) = 1 :: playerKey := by
    rw [List.take_succ_cons, List.take_append_eq_append_take, h, Nat.sub_self,
      List.take_zero, List.append_nil, List.take_of_length_le (le_of_eq h)]
  have hdrop : List.drop (33 + (natToLeBytes 8 0).length)
      (1 :: (playerKey ++ List.replicate 8 0)) = [] := by
    apply List.drop_eq_nil_of_le
    simp [natToLeBytes_length, h]
  rw [htake, hdrop, List.append_nil]
  simp

/-- After a successful Create the probe classifies the record as
initialized (helper). -/
theorem probe_createdData (playerKey : Pubkey) (h : playerKey.length = 32) :
    isInitializedProbe (createdData playerKey) = true := by
  rw [createdData_eq playerKey h, probe_true_iff]
  simp [h, natToLeBytes_length]

/-- **C6**: Create on a record the probe classifies as initialized fails
with `AccountAlreadyInitialized` and leaves the bytes unchanged; in
particular a second Create after a successful first one fails that way
and preserves the bytes written by the first. -/
theorem create_init_once (findPA : List (List Nat) → Pubkey → Pubkey × Nat)
    (allocOk : Bool) (programId scoreKey playerKey : Pubkey)
    (scoreData rest rest2 : List Nat)
    (hpda : (findPA [scoreSeed, playerKey] programId).1 = scoreKey) :
    (isInitializedProbe scoreData = true →
      processInstruction findPA allocOk programId scoreKey scoreData playerKey (0 :: rest)
          = .err .AccountAlreadyInitialized
        ∧ (processInstruction findPA allocOk programId scoreKey scoreData playerKey
            (0 :: rest)).finalData scoreData = scoreData)
    ∧ (isInitializedProbe scoreData = false → allocOk = true → playerKey.length = 32 →
        processInstruction findPA allocOk programId scoreKey scoreData playerKey (0 :: rest)
            = .ok (createdData playerKey)
          ∧ processInstruction findPA allocOk programId scoreKey (createdData playerKey)
              playerKey (0 :: rest2) = .err .AccountAlreadyInitialized
          ∧ (processInstruction findPA allocOk programId scoreKey (createdData playerKey)
              playerKey (0 :: rest2)).finalData (createdData playerKey)
              = createdData playerKey) := by
  refine ⟨fun hinit => ?_, fun hnot halloc hplen => ?_⟩
  · rw [create_eval findPA allocOk programId scoreKey playerKey scoreData rest hpda,
      if_pos hinit]
    exact ⟨rfl, rfl⟩
  · have hsecond :
        processInstruction findPA allocOk programId scoreKey (createdData playerKey)
          playerKey (0 :: rest2) = .err .AccountAlreadyInitialized := by
      rw [create_eval findPA allocOk programId scoreKey playerKey (createdData playerKey)
        rest2 hpda, if_pos (probe_createdData playerKey hplen)]
    refine ⟨?_, hsecond, by rw [hsecond]; rfl⟩
    rw [create_eval findPA allocOk programId scoreKey playerKey scoreData rest hpda,
      hnot, halloc]
    rfl

/-- Witness for C6: a fresh (empty) record, then the record produced by
the first Create. -/
theorem create_init_once_witness :
    (sampleFindPA [scoreSeed, samplePlayer] sampleProgramId).1 = sampleKey
      ∧ isInitializedProbe ([] : List Nat) = false
      ∧ samplePlayer.length = 32
      ∧ (processInstruction sampleFindPA true sampleProgramId sampleKey [] samplePlayer [0]
            = .ok (createdData samplePlayer)
          ∧ processInstruction sampleFindPA true sampleProgramId sampleKey
              (createdData samplePlayer) samplePlayer [0] = .err .AccountAlreadyInitialized
          ∧ (processInstruction sampleFindPA true sampleProgramId sampleKey
              (createdData samplePlayer) samplePlayer [0]).finalData
              (createdData samplePlayer) = createdData samplePlayer) :=
  ⟨rfl, by decide, by decide,
    (create_init_once sampleFindPA true sampleProgramId sampleKey samplePlayer [] [] []
      rfl).2 (by decide) rfl (by decide)⟩

/-- **C9**: a successful Create writes the 41-byte layout
`[1 | player | 0]`: the record decodes to `is_initialized = true`,
`player = P` and `score = 0`. -/
theorem create_roundtrip (findPA : List (List Nat) → Pubkey → Pubkey × Nat)
    (allocOk : Bool) (programId scoreKey playerKey : Pubkey)
    (scoreData rest : List Nat)
    (hpda : (findPA [scoreSeed, playerKey] programId).1 = scoreKey)
    (hnot : isInitializedProbe scoreData = false) (halloc : allocOk = true)
    (hplen : playerKey.length = 32) :
    processInstruction findPA allocOk programId scoreKey scoreData playerKey (0 :: rest)
        = .ok (createdData playerKey)
      ∧ (createdData playerKey).length = 41
      ∧ (createdData playerKey).headD 0 = 1
      ∧ ((createdData playerKey).drop 1).take 32 = playerKey
      ∧ leBytesToNat (((createdData playerKey).drop 33).take 8) = 0 := by
  have heq := createdData_eq playerKey hplen
  refine ⟨?_, ?_, ?_, ?_, ?_⟩
  · rw [create_eval findPA allocOk programId scoreKey playerKey scoreData rest hpda,
      hnot, halloc]
    rfl
  · rw [heq]
    simp [hplen, natToLeBytes_length]
  · rw [heq]
    rfl
  · rw [heq, List.drop_succ_cons, List.drop_zero, List.take_append_eq_append_take,
      hplen, Nat.sub_self, List.take_zero, List.append_nil,
      List.take_of_length_le (le_of_eq hplen)]
  · rw [heq, show (33 : Nat) = 32 + 1 from rfl]
    rw [List.drop_succ_cons]
    rw [List.drop_append_eq_append_drop, hplen, Nat.sub_self, List.drop_zero,
      List.drop_eq_nil_of_le (le_of_eq hplen), List.nil_append]
    rw [show List.take 8 (natToLeBytes 8 0) = natToLeBytes 8 0 from
      List.take_of_length_le (le_of_eq (natToLeBytes_length 8 0)),
      leBytesToNat_natToLeBytes]
    rfl

/-- Witness for C9 on a fresh record for the sample player. -/
theorem create_roundtrip_witness :
    (sampleFindPA [scoreSeed, samplePlayer] sampleProgramId).1 = sampleKey
      ∧ isInitializedProbe ([] : List Nat) = false
      ∧ samplePlayer.length = 32
      ∧ (processInstruction sampleFindPA true sampleProgramId sampleKey [] samplePlayer [0]
            = .ok (createdData samplePlayer)
          ∧ (createdData samplePlayer).length = 41
          ∧ (createdData samplePlayer).headD 0 = 1
          ∧ ((createdData samplePlayer).drop 1).take 32 = samplePlayer
          ∧ leBytesToNat (((createdData samplePlayer).drop 33).take 8) = 0) :=
  ⟨rfl, by decide, by decide,
    create_roundtrip sampleFindPA true sampleProgramId sampleKey samplePlayer [] []
      rfl (by decide) rfl (by decide)⟩

/-- Evaluation of Increment against a matching PDA when the probe says
not initialized (helper). -/
theorem increment_uninit_eval (findPA : List (List Nat) → Pubkey → Pubkey × Nat)
    (allocOk : Bool) (programId scoreKey playerKey : Pubkey)
    (scoreData rest : List Nat)
    (hpda : (findPA [scoreSeed, playerKey] programId).1 = scoreKey)
    (hnot : isInitializedProbe scoreData = false) :
    processInstruction findPA allocOk programId scoreKey scoreData playerKey (1 :: rest)
      = .err .UninitializedAccount := by
  unfold processInstruction
  rw [if_neg (by simp [hpda])]
  simp [hnot]

/-- **C7**: when the current score plus the increment amount exceeds the
64-bit maximum, Increment fails with `InvalidAccountData` (the checked
addition never wraps) and the stored bytes are unchanged. -/
theorem increment_overflow_guard (findPA : List (List Nat) → Pubkey → Pubkey × Nat)
    (allocOk : Bool) (programId scoreKey playerKey : Pubkey)
    (scoreData rest : List Nat)
    (hpda : (findPA [scoreSeed, playerKey] programId).1 = scoreKey)
    (hinit : isInitializedProbe scoreData = true)
    (hlen : 8 ≤ rest.length)
    (hov : U64_MAX <
      leBytesToNat ((scoreData.drop 33).take 8) + leBytesToNat (rest.take 8)) :
    processInstruction findPA allocOk programId scoreKey scoreData playerKey (1 :: rest)
        = .err .InvalidAccountData
      ∧ (processInstruction findPA allocOk programId scoreKey scoreData playerKey
          (1 :: rest)).finalData scoreData = scoreData := by
  rw [increment_eval findPA allocOk programId scoreKey playerKey scoreData rest hpda hinit]
  by_cases hcur : MAX_SCORE < leBytesToNat ((scoreData.drop 33).take 8)
  · rw [if_pos hcur]
    exact ⟨rfl, rfl⟩
  · rw [if_neg hcur, if_neg (by omega), if_pos hov]
    exact ⟨rfl, rfl⟩

/-- Witness for C7: current score 1, increment `u64::MAX`. -/
theorem increment_overflow_guard_witness :
    (sampleFindPA [scoreSeed, samplePlayer] sampleProgramId).1 = sampleKey
      ∧ isInitializedProbe (sampleData 1) = true
      ∧ 8 ≤ (natToLeBytes 8 U64_MAX).length
      ∧ U64_MAX < leBytesToNat (((sampleData 1).drop 33).take 8)
          + leBytesToNat ((natToLeBytes 8 U64_MAX).take 8)
      ∧ (processInstruction sampleFindPA true sampleProgramId sampleKey (sampleData 1)
            samplePlayer (1 :: natToLeBytes 8 U64_MAX) = .err .InvalidAccountData
        ∧ (processInstruction sampleFindPA true sampleProgramId sampleKey (sampleData 1)
            samplePlayer (1 :: natToLeBytes 8 U64_MAX)).finalData (sampleData 1)
            = sampleData 1) :=
  ⟨rfl, by decide, by decide, by decide,
    increment_overflow_guard sampleFindPA true sampleProgramId sampleKey samplePlayer
      (sampleData 1) (natToLeBytes 8 U64_MAX) rfl (by decide) (by decide) (by decide)⟩

/-- **C8**: a passing Increment stores exactly `current + amount` in
bytes 33..41, little-endian: the result is the in-place write of the sum
and decoding bytes 33..41 of the new buffer yields the sum. -/
theorem increment_additive (findPA : List (List Nat) → Pubkey → Pubkey × Nat)
    (allocOk : Bool) (programId scoreKey playerKey : Pubkey)
    (scoreData rest : List Nat)
    (hpda : (findPA [scoreSeed, playerKey] programId).1 = scoreKey)
    (hinit : isInitializedProbe scoreData = true)
    (hlen : 8 ≤ rest.length)
    (hcur : leBytesToNat ((scoreData.drop 33).take 8) ≤ MAX_SCORE)
    (hnoov : leBytesToNat ((scoreData.drop 33).take 8) + leBytesToNat (rest.take 8)
      ≤ U64_MAX) :
    processInstruction findPA allocOk programId scoreKey scoreData playerKey (1 :: rest)
        = .ok (writeSlice scoreData 33 (natToLeBytes 8
            (leBytesToNat ((scoreData.drop 33).take 8) + leBytesToNat (rest.take 8))))
      ∧ leBytesToNat (((writeSlice scoreData 33 (natToLeBytes 8
            (leBytesToNat ((scoreData.drop 33).take 8)
              + leBytesToNat (rest.take 8)))).drop 33).take 8)
          = leBytesToNat ((scoreData.drop 33).take 8) + leBytesToNat (rest.take 8) := by
  have hlen41 : scoreData.length = 41 := ((probe_true_iff scoreData).mp hinit).1
  constructor
  · rw [increment_eval findPA allocOk programId scoreKey playerKey scoreData rest hpda hinit,
      if_neg (by omega), if_neg (by omega), if_neg (by omega)]
  · have hr := writeSlice_read scoreData (natToLeBytes 8
      (leBytesToNat ((scoreData.drop 33).take 8) + leBytesToNat (rest.take 8))) 33
      (by omega)
    rw [natToLeBytes_length] at hr
    rw [hr, leBytesToNat_natToLeBytes]
    apply Nat.mod_eq_of_lt
    have hU : U64_MAX = 2 ^ 64 - 1 := rfl
    rw [hU] at hnoov
    norm_num at hnoov ⊢
    omega

/-- Witness for C8, mirroring the spec's scenario: score 500, increment
999,999, new score 1,000,499 (above the ceiling, still accepted). -/
theorem increment_additive_witness :
    (sampleFindPA [scoreSeed, samplePlayer] sampleProgramId).1 = sampleKey
      ∧ isInitializedProbe (sampleData 500) = true
      ∧ 8 ≤ (natToLeBytes 8 999999).length
      ∧ leBytesToNat (((sampleData 500).drop 33).take 8) ≤ MAX_SCORE
      ∧ leBytesToNat (((sampleData 500).drop 33).take 8)
          + leBytesToNat ((natToLeBytes 8 999999).take 8) ≤ U64_MAX
      ∧ (processInstruction sampleFindPA true sampleProgramId sampleKey (sampleData 500)
            samplePlayer (1 :: natToLeBytes 8 999999)
            = .ok (writeSlice (sampleData 500) 33 (natToLeBytes 8
                (leBytesToNat (((sampleData 500).drop 33).take 8)
                  + leBytesToNat ((natToLeBytes 8 999999).take 8))))
        ∧ leBytesToNat (((writeSlice (sampleData 500) 33 (natToLeBytes 8
              (leBytesToNat (((sampleData 500).drop 33).take 8)
                + leBytesToNat ((natToLeBytes 8 999999).take 8)))).drop 33).take 8)
            = leBytesToNat (((sampleData 500).drop 33).take 8)
              + leBytesToNat ((natToLeBytes 8 999999).take 8)) :=
  ⟨rfl, by decide, by decide, by decide, by decide,
    increment_additive sampleFindPA true sampleProgramId sampleKey samplePlayer
      (sampleData 500) (natToLeBytes 8 999999) rfl (by decide) (by decide) (by decide)
      (by decide)⟩

/-- **C10**: every successful Increment leaves bytes 0..33 (flag and
player identity) and the total length unchanged; only the score window
33..41 is rewritten. -/
theorem increment_frame (findPA : List (List Nat) → Pubkey → Pubkey × Nat)
    (allocOk : Bool) (programId scoreKey playerKey : Pubkey)
    (scoreData rest d : List Nat)
    (hres : processInstruction findPA allocOk programId scoreKey scoreData playerKey
      (1 :: rest) = .ok d) :
    d.take 33 = scoreData.take 33 ∧ d.length = scoreData.length := by
  by_cases hpda : (findPA [scoreSeed, playerKey] programId).1 = scoreKey
  · cases hinit : isInitializedProbe scoreData with
    | false =>
      rw [increment_uninit_eval findPA allocOk programId scoreKey playerKey scoreData rest
        hpda hinit] at hres
      cases hres
    | true =>
      rw [increment_eval findPA allocOk programId scoreKey playerKey scoreData rest hpda
        hinit] at hres
      by_cases h1 : MAX_SCORE < leBytesToNat ((scoreData.drop 33).take 8)
      · rw [if_pos h1] at hres
        cases hres
      · rw [if_neg h1] at hres
        by_cases h2 : rest.length + 1 < 9
        · rw [if_pos h2] at hres
          cases hres
        · rw [if_neg h2] at hres
          by_cases h3 : U64_MAX < leBytesToNat ((scoreData.drop 33).take 8)
              + leBytesToNat (rest.take 8)
          · rw [if_pos h3] at hres
            cases hres
          · rw [if_neg h3] at hres
            have hlen41 : scoreData.length = 41 := ((probe_true_iff scoreData).mp hinit).1
            cases hres
            constructor
            · exact writeSlice_take scoreData _ 33 (by omega)
            · exact writeSlice_length scoreData _ 33 (by rw [natToLeBytes_length]; omega)
  · simp [processInstruction, hpda] at hres

/-- Witness for C10: incrementing the fresh record by 7 preserves the
first 33 bytes and the length. -/
theorem increment_frame_witness :
    processInstruction sampleFindPA true sampleProgramId sampleKey (sampleData 0)
        samplePlayer (1 :: natToLeBytes 8 7)
        = .ok (writeSlice (sampleData 0) 33 (natToLeBytes 8 7))
      ∧ ((writeSlice (sampleData 0) 33 (natToLeBytes 8 7)).take 33
          = (sampleData 0).take 33
        ∧ (writeSlice (sampleData 0) 33 (natToLeBytes 8 7)).length
          = (sampleData 0).length) :=
  ⟨by decide,
    increment_frame sampleFindPA true sampleProgramId sampleKey samplePlayer (sampleData 0)
      (natToLeBytes 8 7) (writeSlice (sampleData 0) 33 (natToLeBytes 8 7)) (by decide)⟩

end GarbageGrab
